import Mathlib

set_option autoImplicit false

/-
Shallow embedding of memphora-sdk `src/integrations.py`.

The file defines the four adapter classes as Lean structures holding their
configuration and local mutable state, and each adapter method as a pure
function that returns its result, the updated local state, and a trace of
the calls it issued to the external backend client (`memphora_sdk.Memphora`,
not part of this repository). Backend calls whose *results* the adapter
consumes are modelled by an oracle structure `Backend` of pure functions;
every issued call is additionally recorded in the trace so that claims about
"how many backend calls" are statable.

Python `dict.get(key, default)` on string-valued dicts is modelled by
`dictGet` over association lists, and Python string truthiness by comparison
with the empty string.
-/

/-- Chat message as used by the adapters: a (role, content) pair. -/
structure ChatMessage where
  role : String
  content : String
  deriving DecidableEq

/-- Metadata mapping passed to backend store calls (string-valued). -/
abbrev Metadata := List (String × String)

/-- One search fact returned by the backend: either a structured mapping or a
plain value rendered via `str`. -/
inductive MemFact where
  | dict (fields : List (String × String))
  | str (s : String)
  deriving DecidableEq

/-- Backend search result: a mapping whose "facts" entry is a list of facts. -/
structure SearchResult where
  facts : List MemFact
  deriving DecidableEq

/-- One call issued to the external backend client, recorded in a trace. -/
inductive BCall where
  | store_conversation (human ai : String)
  | get_context (query : String) (limit : Nat)
  | clear
  | store_agent_memory (agent_id content : String) (metadata : Metadata)
  | search_agent_memories (agent_id query : String) (limit : Nat)
  | search (query : String) (limit : Nat)
  | store_group_memory (group_id content : String) (metadata : Metadata)
  | search_group_memories (group_id query : String) (limit : Nat)
  | get_group_context (group_id : String) (limit : Nat)
  deriving DecidableEq

/-- Oracle giving the results of the backend calls whose return values the
adapters consume. The backend is external to this repository and opaque. -/
structure Backend where
  get_context : String → Nat → String
  search_agent_memories : String → String → Nat → SearchResult
  search : String → Nat → SearchResult

/-- String-keyed mapping with Python `dict.get(key, default)` semantics. -/
abbrev Dict := List (String × String)

/-- Python `d.get(k, default)`: value of the first matching key, else the
default. -/
def dictGet (d : Dict) (k : String) (dflt : String) : String :=
  match d.find? (fun p => p.1 == k) with
  | some p => p.2
  | none => dflt

/-! ### LangChain conversation-memory adapter (`MemphoraLangChain`) -/

/-- Configuration of `MemphoraLangChain` (constructor parameters; the adapter
holds no mutable local state). -/
structure MemphoraLangChain where
  session_id : String
  memory_key : String
  input_key : String
  output_key : String
  return_messages : Bool
  human_prefix : String
  ai_prefix : String
  deriving DecidableEq

/-- Payload stored under the memory key: a message list in messages mode, a
raw string in string mode. -/
inductive MemPayload where
  | msgs (l : List ChatMessage)
  | str (s : String)
  deriving DecidableEq

/-- Embeds `MemphoraLangChain._format_as_messages`: empty context gives the
empty list, otherwise one synthetic system message wrapping the context. -/
def MemphoraLangChain.format_as_messages (context : String) : List ChatMessage :=
  if context = "" then []
  else [{ role := "system", content := "Relevant context:\n" ++ context }]

/-- Embeds `MemphoraLangChain.load_memory_variables`: read the query from the
configured input key; if falsy return the mode-matching empty payload with no
backend call, else fetch context with limit 10 and wrap it per mode. -/
def MemphoraLangChain.load_memory_variables (st : MemphoraLangChain) (bk : Backend)
    (inputs : Dict) : (String × MemPayload) × List BCall :=
  let query := dictGet inputs st.input_key ""
  if query = "" then
    ((st.memory_key, if st.return_messages then MemPayload.msgs [] else MemPayload.str ""), [])
  else
    let context := bk.get_context query 10
    ((st.memory_key,
      if st.return_messages then MemPayload.msgs (MemphoraLangChain.format_as_messages context)
      else MemPayload.str context),
     [BCall.get_context query 10])

/-- Embeds `MemphoraLangChain.save_context`: store the conversation turn only
when both the configured input value and output value are truthy. The adapter
state is returned unchanged (the method mutates nothing locally). -/
def MemphoraLangChain.save_context (st : MemphoraLangChain) (inputs outputs : Dict) :
    MemphoraLangChain × List BCall :=
  let human_input := dictGet inputs st.input_key ""
  let ai_output := dictGet outputs st.output_key ""
  if human_input ≠ "" ∧ ai_output ≠ "" then
    (st, [BCall.store_conversation human_input ai_output])
  else
    (st, [])

/-- Embeds `MemphoraLangChain.clear`: forwards to the backend clear call. -/
def MemphoraLangChain.clear (st : MemphoraLangChain) : MemphoraLangChain × List BCall :=
  (st, [BCall.clear])

/-- Concrete LangChain adapter configuration used in concrete instances
(default constructor arguments of the source class). -/
def lcDemo : MemphoraLangChain :=
  { session_id := "user123", memory_key := "history", input_key := "input",
    output_key := "output", return_messages := true,
    human_prefix := "Human", ai_prefix := "AI" }

/-- Backend oracle returning empty context and empty search results. -/
def bkEmpty : Backend :=
  { get_context := fun _ _ => "",
    search_agent_memories := fun _ _ _ => { facts := [] },
    search := fun _ _ => { facts := [] } }

/-- Backend oracle returning the fixed context string "CTX" and fixed facts. -/
def bkDemo : Backend :=
  { get_context := fun _ _ => "CTX",
    search_agent_memories := fun _ _ _ => { facts := [MemFact.dict [("text", "A")], MemFact.str "B"] },
    search := fun _ _ => { facts := [MemFact.str "S"] } }

/-! ### LlamaIndex chat-buffer adapter (`MemphoraLlamaIndex`) -/

/-- State of `MemphoraLlamaIndex`: the token limit and the local chat history
buffer (`_chat_history`). -/
structure MemphoraLlamaIndex where
  token_limit : Nat
  chat_history : List ChatMessage
  deriving DecidableEq

/-- Embeds `MemphoraLlamaIndex.get`: empty string when the query is falsy,
otherwise a backend context lookup with the caller-supplied limit. -/
def MemphoraLlamaIndex.get (bk : Backend) (query : Option String) (limit : Nat) :
    String × List BCall :=
  match query with
  | some q =>
    if q = "" then ("", [])
    else (bk.get_context q limit, [BCall.get_context q limit])
  | none => ("", [])

/-- Embeds `MemphoraLlamaIndex.put`: store the turn, then append a user entry
and an assistant entry to the local buffer, in that order. -/
def MemphoraLlamaIndex.put (st : MemphoraLlamaIndex) (user_message assistant_message : String) :
    MemphoraLlamaIndex × List BCall :=
  ({ st with chat_history := st.chat_history ++
      [{ role := "user", content := user_message },
       { role := "assistant", content := assistant_message }] },
   [BCall.store_conversation user_message assistant_message])

/-- Embeds `MemphoraLlamaIndex.reset`: clears the local buffer only. -/
def MemphoraLlamaIndex.reset (st : MemphoraLlamaIndex) : MemphoraLlamaIndex :=
  { st with chat_history := [] }

/-- Stores issued by the loop of `MemphoraLlamaIndex.set`: walk the messages
two at a time (loop indices 0, 2, 4, … with a successor in range) and store
the pair when the roles are user followed by assistant. -/
def storePairs : List ChatMessage → List BCall
  | u :: a :: rest =>
    (if u.role = "user" ∧ a.role = "assistant"
     then [BCall.store_conversation u.content a.content] else []) ++ storePairs rest
  | _ => []

/-- Embeds `MemphoraLlamaIndex.set`: replace the local buffer wholesale, then
store each aligned (user, assistant) pair. -/
def MemphoraLlamaIndex.set (st : MemphoraLlamaIndex) (messages : List ChatMessage) :
    MemphoraLlamaIndex × List BCall :=
  ({ st with chat_history := messages }, storePairs messages)

/-- Spec-side formulation of the pairing policy for comparison: the stores at
positions (2i, 2i+1) of the message list whose roles are user then
assistant. -/
def pairsByIndex (messages : List ChatMessage) : List BCall :=
  (List.range (messages.length / 2)).filterMap (fun i =>
    match messages.get? (2 * i), messages.get? (2 * i + 1) with
    | some u, some a =>
      if u.role = "user" ∧ a.role = "assistant"
      then some (BCall.store_conversation u.content a.content) else none
    | _, _ => none)

/-! ### CrewAI crew-shared-memory adapter (`MemphoraCrewAI`) -/

/-- Per-agent memory handle (`MemphoraAgentMemory`). The `tag` field models
Python object identity: each construction receives a fresh allocation tag
from the crew adapter, so two handles are the identical instance exactly when
their tags (and fields) coincide. -/
structure MemphoraAgentMemory where
  tag : Nat
  agent_id : String
  crew_id : String
  deriving DecidableEq

/-- State of `MemphoraCrewAI`: the crew id, the memoization table
`_agent_memories` (an insertion-ordered mapping from agent id to handle), and
the next free allocation tag modelling object identity. -/
structure MemphoraCrewAI where
  crew_id : String
  next_tag : Nat
  agent_memories : List (String × MemphoraAgentMemory)
  deriving DecidableEq

/-- Embeds `MemphoraCrewAI.for_agent`: return the memoized handle when one
exists for the agent id; otherwise construct a fresh handle from the agent id
and the crew id, record it, and return it. -/
def MemphoraCrewAI.for_agent (st : MemphoraCrewAI) (agent_id : String) :
    MemphoraAgentMemory × MemphoraCrewAI :=
  match st.agent_memories.find? (fun p => p.1 == agent_id) with
  | some p => (p.2, st)
  | none =>
    let h : MemphoraAgentMemory :=
      { tag := st.next_tag, agent_id := agent_id, crew_id := st.crew_id }
    (h, { st with next_tag := st.next_tag + 1,
                  agent_memories := st.agent_memories ++ [(agent_id, h)] })

/-- Embeds `MemphoraCrewAI.store_shared`: tag the metadata with shared=true
and the crew id, then forward to the group store. -/
def MemphoraCrewAI.store_shared (st : MemphoraCrewAI) (content : String)
    (metadata : Metadata) : List BCall :=
  [BCall.store_group_memory st.crew_id content
    (metadata ++ [("shared", "true"), ("crew_id", st.crew_id)])]

/-! ### AutoGen agent-message-hook adapter (`MemphoraAutoGen`) -/

/-- Message buffer entry of the AutoGen adapter: content, sender, receiver. -/
structure MessageEntry where
  content : String
  sender : String
  receiver : String
  deriving DecidableEq

/-- State of `MemphoraAutoGen`: session id, escalation-tracking flag, and the
local `_message_buffer`. -/
structure MemphoraAutoGen where
  session_id : String
  track_escalations : Bool
  message_buffer : List MessageEntry
  deriving DecidableEq

/-- Boolean test that `pat` is a prefix of `s`, on character lists. -/
def prefixOfB : List Char → List Char → Bool
  | [], _ => true
  | _ :: _, [] => false
  | p :: ps, c :: cs => p == c && prefixOfB ps cs

/-- Boolean test that `pat` occurs as a contiguous substring of `s`, on
character lists: Python's `pat in s` on strings. -/
def substrOfB (pat : List Char) : List Char → Bool
  | [] => prefixOfB pat []
  | c :: cs => prefixOfB pat (c :: cs) || substrOfB pat cs

/-- Python `pat in s` for strings: substring containment. -/
def pyInStr (pat s : String) : Bool :=
  substrOfB pat.data s.data

/-- Python `s.lower()` on the ASCII content this code handles: lowercase each
character. -/
def pyLower (s : String) : String :=
  String.mk (s.data.map Char.toLower)

/-- The fixed escalation keyword list of `MemphoraAutoGen._on_message`. -/
def escalation_keywords : List String :=
  ["escalate", "human", "supervisor", "help needed"]

/-- Embeds `MemphoraAutoGen._on_message`: drop the message when content is
empty; otherwise append a buffer entry, store the message record, and, when
escalation tracking is on and a keyword occurs in the lowercased content,
store the ESCALATION-prefixed record. -/
def MemphoraAutoGen.on_message (st : MemphoraAutoGen) (content sender receiver : String) :
    MemphoraAutoGen × List BCall :=
  if content = "" then (st, [])
  else
    let st' := { st with message_buffer :=
      st.message_buffer ++ [{ content := content, sender := sender, receiver := receiver }] }
    let message_store := BCall.store_agent_memory sender content
      [("receiver", receiver), ("session_id", st.session_id), ("type", "message")]
    let escalation_stores :=
      if st.track_escalations && escalation_keywords.any (fun kw => pyInStr kw (pyLower content))
      then [BCall.store_agent_memory sender ("ESCALATION: " ++ content)
        [("type", "escalation"), ("session_id", st.session_id),
         ("from_agent", sender), ("to_agent", receiver)]]
      else []
    (st', message_store :: escalation_stores)

/-- Inbound message as received by the wrapped receive hook: a plain string
or a structured object carrying a "content" field. -/
inductive AgentMessage where
  | str (s : String)
  | dict (fields : List (String × String))
  deriving DecidableEq

/-- Content extraction of the receive wrapper in `register_with_agent`: a
plain string is used directly; a structured message yields its "content"
field, defaulting to empty. -/
def extract_content : AgentMessage → String
  | AgentMessage.str s => s
  | AgentMessage.dict fields => dictGet fields "content" ""

/-- Renders one search fact as `MemphoraAutoGen.get_context` does: the "text"
field of a structured fact (defaulting to empty), the direct string form
otherwise. -/
def renderFact : MemFact → String
  | MemFact.dict fields => dictGet fields "text" ""
  | MemFact.str s => s

/-- Embeds `MemphoraAutoGen.get_context`: search the given agent's memories
when a truthy agent id is supplied, else search session-wide; extract the
facts, render each, join with newlines; empty facts give the empty string. -/
def MemphoraAutoGen.get_context (bk : Backend) (query : String)
    (agent_id : Option String) (limit : Nat) : String × List BCall :=
  let truthy_id := match agent_id with
    | some aid => if aid = "" then none else some aid
    | none => none
  match truthy_id with
  | some aid =>
    let facts := (bk.search_agent_memories aid query limit).facts
    (if facts.isEmpty then "" else String.intercalate "\n" (facts.map renderFact),
     [BCall.search_agent_memories aid query limit])
  | none =>
    let facts := (bk.search query limit).facts
    (if facts.isEmpty then "" else String.intercalate "\n" (facts.map renderFact),
     [BCall.search query limit])

/-- Embeds `MemphoraAutoGen.clear_session`: clears only the local buffer. -/
def MemphoraAutoGen.clear_session (st : MemphoraAutoGen) : MemphoraAutoGen :=
  { st with message_buffer := [] }

/-- Concrete AutoGen adapter state with escalation tracking enabled. -/
def agDemo : MemphoraAutoGen :=
  { session_id := "session-123", track_escalations := true, message_buffer := [] }

/-- Concrete LlamaIndex adapter state with the default token limit and an
empty buffer. -/
def llDemo : MemphoraLlamaIndex :=
  { token_limit := 3000, chat_history := [] }

/-- Concrete CrewAI adapter state with no memoized handles. -/
def crewDemo : MemphoraCrewAI :=
  { crew_id := "my-crew", next_tag := 0, agent_memories := [] }

/-! ### Helper lemmas -/

/-- Unfolds the indexed pairing specification one (user, assistant) slot at a
time. -/
theorem pairsByIndex_cons_cons (u a : ChatMessage) (rest : List ChatMessage) :
    pairsByIndex (u :: a :: rest) =
      (if u.role = "user" ∧ a.role = "assistant"
       then [BCall.store_conversation u.content a.content] else []) ++ pairsByIndex rest := by
  unfold pairsByIndex
  have hlen : (u :: a :: rest).length / 2 = rest.length / 2 + 1 := by
    simp only [List.length_cons]
    omega
  rw [hlen, List.range_succ_eq_map, List.filterMap_cons, List.filterMap_map]
  have hf : (fun i => match (u :: a :: rest).get? (2 * i), (u :: a :: rest).get? (2 * i + 1) with
       | some x, some y =>
         if x.role = "user" ∧ y.role = "assistant"
         then some (BCall.store_conversation x.content y.content) else none
       | _, _ => none) ∘ Nat.succ =
      (fun i => match rest.get? (2 * i), rest.get? (2 * i + 1) with
       | some x, some y =>
         if x.role = "user" ∧ y.role = "assistant"
         then some (BCall.store_conversation x.content y.content) else none
       | _, _ => none) := by
    funext i
    have h2 : 2 * Nat.succ i = 2 * i + 1 + 1 := by omega
    simp only [Function.comp, h2, List.get?_cons_succ]
  rw [hf]
  by_cases hc : u.role = "user" ∧ a.role = "assistant" <;> simp [hc]

/-- The two-at-a-time loop of `set` agrees with the indexed pairing
specification. -/
theorem storePairs_eq_pairsByIndex : ∀ messages : List ChatMessage,
    storePairs messages = pairsByIndex messages
  | [] => by simp [storePairs, pairsByIndex]
  | [_] => by simp [storePairs, pairsByIndex]
  | u :: a :: rest => by
    rw [pairsByIndex_cons_cons, show storePairs (u :: a :: rest) =
      (if u.role = "user" ∧ a.role = "assistant"
       then [BCall.store_conversation u.content a.content] else []) ++ storePairs rest from rfl,
      storePairs_eq_pairsByIndex rest]

/-- Boolean prefix test agrees with the prefix relation. -/
theorem prefixOfB_iff : ∀ pat s : List Char, prefixOfB pat s = true ↔ pat <+: s
  | [], s => by simp [prefixOfB]
  | p :: ps, [] => by simp [prefixOfB]
  | p :: ps, c :: cs => by
    have ih := prefixOfB_iff ps cs
    simp [prefixOfB, ih, List.cons_prefix_cons, Bool.and_eq_true, beq_iff_eq]

/-- Boolean substring test agrees with the contiguous-sublist relation. -/
theorem substrOfB_iff : ∀ pat s : List Char, substrOfB pat s = true ↔ pat <:+: s
  | pat, [] => by
    simp [substrOfB, prefixOfB_iff]
  | pat, c :: cs => by
    have ih := substrOfB_iff pat cs
    simp [substrOfB, prefixOfB_iff, ih, List.infix_cons_iff, Bool.or_eq_true]

/-! ### Claim theorems -/

/-- C1: save_context invokes the backend conversation store exactly once when
both the value at the configured input key and the value at the configured
output key are present and non-empty, and zero times otherwise; in the
zero-times case nothing is stored and the adapter state is unchanged (it is
unchanged in every case: the method mutates no local state). -/
theorem save_context_exactly_once (st : MemphoraLangChain) (inputs outputs : Dict) :
    (MemphoraLangChain.save_context st inputs outputs).1 = st ∧
    ((dictGet inputs st.input_key "" ≠ "" ∧ dictGet outputs st.output_key "" ≠ "") →
      (MemphoraLangChain.save_context st inputs outputs).2 =
        [BCall.store_conversation (dictGet inputs st.input_key "")
          (dictGet outputs st.output_key "")]) ∧
    (¬(dictGet inputs st.input_key "" ≠ "" ∧ dictGet outputs st.output_key "" ≠ "") →
      (MemphoraLangChain.save_context st inputs outputs).2 = []) := by
  unfold MemphoraLangChain.save_context
  by_cases h : dictGet inputs st.input_key "" ≠ "" ∧ dictGet outputs st.output_key "" ≠ "" <;>
    simp [h]

/-- Witness for C1 at concrete inputs: both present and non-empty stores the
turn once; a missing output key stores nothing. -/
theorem save_context_exactly_once_witness :
    (MemphoraLangChain.save_context lcDemo [("input", "hi")] [("output", "yo")]).2 =
      [BCall.store_conversation "hi" "yo"] ∧
    (MemphoraLangChain.save_context lcDemo [("input", "hi")] []).2 = [] := by
  have h1 := (save_context_exactly_once lcDemo [("input", "hi")] [("output", "yo")]).2.1
    (by decide)
  have h2 := (save_context_exactly_once lcDemo [("input", "hi")] []).2.2 (by decide)
  exact ⟨h1.trans (by decide), h2⟩

/-- C5: when the configured input key is absent or maps to the empty string,
load_memory_variables returns the mode-matching empty payload under the
memory key and issues no backend call. -/
theorem load_empty_query_no_backend (st : MemphoraLangChain) (bk : Backend) (inputs : Dict)
    (h : dictGet inputs st.input_key "" = "") :
    MemphoraLangChain.load_memory_variables st bk inputs =
      ((st.memory_key, if st.return_messages then MemPayload.msgs [] else MemPayload.str ""),
       []) := by
  unfold MemphoraLangChain.load_memory_variables
  simp [h]

/-- Witness for C5: a mapping without the configured input key yields the
empty message list and an empty call trace. -/
theorem load_empty_query_no_backend_witness :
    MemphoraLangChain.load_memory_variables lcDemo bkDemo [("other", "x")] =
      (("history", MemPayload.msgs []), []) := by
  have h := load_empty_query_no_backend lcDemo bkDemo [("other", "x")] (by decide)
  exact h.trans (by decide)

/-- C7: a message whose extracted content is empty is dropped entirely: the
buffer gains no entry and no backend call of any kind is made. -/
theorem on_message_empty_noop (st : MemphoraAutoGen) (sender receiver : String)
    (msg : AgentMessage) (h : extract_content msg = "") :
    MemphoraAutoGen.on_message st (extract_content msg) sender receiver = (st, []) := by
  rw [h]
  simp [MemphoraAutoGen.on_message]

/-- Witness for C7: a structured message without a content field extracts to
empty content and changes nothing. -/
theorem on_message_empty_noop_witness :
    MemphoraAutoGen.on_message agDemo (extract_content (AgentMessage.dict [])) "a" "b" =
      (agDemo, []) :=
  on_message_empty_noop agDemo "a" "b" (AgentMessage.dict []) (by decide)

/-- C9: put applies no emptiness check: for every pair of strings, including
empty ones, it stores the turn exactly once and appends a user entry then an
assistant entry to the local buffer. -/
theorem put_always_stores (st : MemphoraLlamaIndex) (u a : String) :
    (MemphoraLlamaIndex.put st u a).2 = [BCall.store_conversation u a] ∧
    (MemphoraLlamaIndex.put st u a).1.chat_history =
      st.chat_history ++
        [{ role := "user", content := u }, { role := "assistant", content := a }] ∧
    (MemphoraLlamaIndex.put st "" "").2 = [BCall.store_conversation "" ""] ∧
    (MemphoraLlamaIndex.put st "" "").1.chat_history =
      st.chat_history ++
        [{ role := "user", content := "" }, { role := "assistant", content := "" }] :=
  ⟨rfl, rfl, rfl, rfl⟩

/-- Counterexample to C2 as stated: with a non-empty query and messages mode,
a backend whose context for the query is empty makes load return the empty
message list — not a list containing exactly one synthetic system message. -/
theorem load_messages_empty_context_cex :
    dictGet [("input", "q")] lcDemo.input_key "" = "q" ∧
    lcDemo.return_messages = true ∧
    (MemphoraLangChain.load_memory_variables lcDemo bkEmpty [("input", "q")]).2 =
      [BCall.get_context "q" 10] ∧
    (MemphoraLangChain.load_memory_variables lcDemo bkEmpty [("input", "q")]).1.2 =
      MemPayload.msgs [] ∧
    MemPayload.msgs ([] : List ChatMessage) ≠
      MemPayload.msgs [{ role := "system", content :=
        "Relevant context:\n" ++ bkEmpty.get_context "q" 10 }] := by
  decide

/-- C2 amended: with a non-empty query, load performs exactly one backend
context lookup with limit 10 and, in messages mode, returns under the memory
key exactly one synthetic system-role message containing the returned context
when that context is non-empty, and the empty message list when the backend
returns an empty context; in string mode it returns the raw context string. -/
theorem load_nonempty_query_spec (st : MemphoraLangChain) (bk : Backend) (inputs : Dict)
    (h : dictGet inputs st.input_key "" ≠ "") :
    (MemphoraLangChain.load_memory_variables st bk inputs).2 =
      [BCall.get_context (dictGet inputs st.input_key "") 10] ∧
    (MemphoraLangChain.load_memory_variables st bk inputs).1.1 = st.memory_key ∧
    (st.return_messages = true →
      (bk.get_context (dictGet inputs st.input_key "") 10 ≠ "" →
        (MemphoraLangChain.load_memory_variables st bk inputs).1.2 =
          MemPayload.msgs [{ role := "system", content :=
            "Relevant context:\n" ++ bk.get_context (dictGet inputs st.input_key "") 10 }]) ∧
      (bk.get_context (dictGet inputs st.input_key "") 10 = "" →
        (MemphoraLangChain.load_memory_variables st bk inputs).1.2 = MemPayload.msgs [])) ∧
    (st.return_messages = false →
      (MemphoraLangChain.load_memory_variables st bk inputs).1.2 =
        MemPayload.str (bk.get_context (dictGet inputs st.input_key "") 10)) := by
  unfold MemphoraLangChain.load_memory_variables MemphoraLangChain.format_as_messages
  refine ⟨by simp [h], by simp [h], fun hr => ⟨fun hc => by simp [h, hr, hc],
    fun hc => by simp [h, hr, hc]⟩, fun hr => by simp [h, hr]⟩

/-- Witness for the amended C2: a backend returning context "CTX" yields one
wrapping system message, and a backend returning the empty context yields the
empty message list. -/
theorem load_nonempty_query_spec_witness :
    (MemphoraLangChain.load_memory_variables lcDemo bkDemo [("input", "q")]).1.2 =
      MemPayload.msgs [{ role := "system", content := "Relevant context:\nCTX" }] ∧
    (MemphoraLangChain.load_memory_variables lcDemo bkEmpty [("input", "q")]).1.2 =
      MemPayload.msgs [] ∧
    (MemphoraLangChain.load_memory_variables lcDemo bkDemo [("input", "q")]).2 =
      [BCall.get_context "q" 10] := by
  have h1 := load_nonempty_query_spec lcDemo bkDemo [("input", "q")] (by decide)
  have h2 := load_nonempty_query_spec lcDemo bkEmpty [("input", "q")] (by decide)
  refine ⟨?_, ?_, ?_⟩
  · exact ((h1.2.2.1 rfl).1 (by decide)).trans (by decide)
  · exact (h2.2.2.1 rfl).2 (by decide)
  · exact h1.1.trans (by decide)

/-- C3: set replaces the local chat buffer wholesale with the given sequence
and stores exactly the adjacent pairs at positions (2i, 2i+1) whose roles are
user followed by assistant, skipping mismatched pairs; in particular the
three-message example stores exactly the pair (hi, hey) and the trailing
unpaired user message is not stored. -/
theorem set_stores_aligned_pairs (st : MemphoraLlamaIndex) (messages : List ChatMessage) :
    (MemphoraLlamaIndex.set st messages).1 = { st with chat_history := messages } ∧
    (MemphoraLlamaIndex.set st messages).2 = pairsByIndex messages ∧
    MemphoraLlamaIndex.set llDemo
        [{ role := "user", content := "hi" }, { role := "assistant", content := "hey" },
         { role := "user", content := "bye" }] =
      ({ token_limit := 3000, chat_history :=
          [{ role := "user", content := "hi" }, { role := "assistant", content := "hey" },
           { role := "user", content := "bye" }] },
       [BCall.store_conversation "hi" "hey"]) :=
  ⟨rfl, storePairs_eq_pairsByIndex messages, by decide⟩

/-- C4: with escalation tracking enabled, a non-empty message whose lowercased
content matches the keyword set produces exactly two backend agent-memory
stores: first the original content with metadata type=message, then the
ESCALATION-prefixed content with metadata type=escalation plus the from/to
agent names. -/
theorem on_message_escalation_two_stores (st : MemphoraAutoGen)
    (content sender receiver : String) (htrack : st.track_escalations = true)
    (hne : content ≠ "")
    (hkw : escalation_keywords.any (fun kw => pyInStr kw (pyLower content)) = true) :
    (MemphoraAutoGen.on_message st content sender receiver).2 =
      [BCall.store_agent_memory sender content
         [("receiver", receiver), ("session_id", st.session_id), ("type", "message")],
       BCall.store_agent_memory sender ("ESCALATION: " ++ content)
         [("type", "escalation"), ("session_id", st.session_id),
          ("from_agent", sender), ("to_agent", receiver)]] := by
  unfold MemphoraAutoGen.on_message
  simp [hne, htrack, hkw]

/-- Witness for C4: the message "please escalate now" with tracking enabled
produces exactly the message record and the escalation record. -/
theorem on_message_escalation_two_stores_witness :
    (MemphoraAutoGen.on_message agDemo "please escalate now" "user_proxy" "assistant").2 =
      [BCall.store_agent_memory "user_proxy" "please escalate now"
         [("receiver", "assistant"), ("session_id", "session-123"), ("type", "message")],
       BCall.store_agent_memory "user_proxy" "ESCALATION: please escalate now"
         [("type", "escalation"), ("session_id", "session-123"),
          ("from_agent", "user_proxy"), ("to_agent", "assistant")]] := by
  have h := on_message_escalation_two_stores agDemo "please escalate now" "user_proxy"
    "assistant" rfl (by decide) (by decide)
  exact h.trans (by decide)

/-- C6: get_context searches agent-scoped when a truthy agent id is given and
session-wide otherwise, renders each fact of the result's facts list as its
text field when structured and as its direct string form otherwise, and joins
the renderings with newlines; an empty facts list yields exactly the empty
string (the join of no renderings). -/
theorem get_context_renders_facts (bk : Backend) (query : String) (agent_id : Option String)
    (limit : Nat) (fields : List (String × String)) (s : String) :
    (∀ aid, agent_id = some aid → aid ≠ "" →
      MemphoraAutoGen.get_context bk query agent_id limit =
        (String.intercalate "\n"
           ((bk.search_agent_memories aid query limit).facts.map renderFact),
         [BCall.search_agent_memories aid query limit])) ∧
    (agent_id = none →
      MemphoraAutoGen.get_context bk query agent_id limit =
        (String.intercalate "\n" ((bk.search query limit).facts.map renderFact),
         [BCall.search query limit])) ∧
    renderFact (MemFact.dict fields) = dictGet fields "text" "" ∧
    renderFact (MemFact.str s) = s := by
  refine ⟨fun aid he hne => ?_, fun he => ?_, rfl, rfl⟩
  · subst he
    unfold MemphoraAutoGen.get_context
    simp [hne]
    intro hf
    rw [hf]
    rfl
  · subst he
    unfold MemphoraAutoGen.get_context
    simp
    intro hf
    rw [hf]
    rfl

/-- Witness for C6: an agent-scoped search rendering a structured fact and a
plain fact joined by a newline, and a session-wide search with an empty facts
list yielding exactly the empty string. -/
theorem get_context_renders_facts_witness :
    MemphoraAutoGen.get_context bkDemo "q" (some "agent1") 10 =
      ("A\nB", [BCall.search_agent_memories "agent1" "q" 10]) ∧
    MemphoraAutoGen.get_context bkEmpty "q" none 10 = ("", [BCall.search "q" 10]) := by
  have h1 := (get_context_renders_facts bkDemo "q" (some "agent1") 10 [] "").1 "agent1" rfl
    (by decide)
  have h2 := (get_context_renders_facts bkEmpty "q" none 10 [] "").2.1 rfl
  exact ⟨h1.trans (by decide), h2.trans (by decide)⟩

/-- C8: for_agent is memoized: calling it again with the same agent id returns
the identical handle instance and leaves the adapter unchanged, so any number
of calls reuse the handle constructed on the first call from that agent id
and the crew id (with a fresh allocation tag). -/
theorem for_agent_memoized (st : MemphoraCrewAI) (agent_id : String) :
    (MemphoraCrewAI.for_agent (MemphoraCrewAI.for_agent st agent_id).2 agent_id).1 =
      (MemphoraCrewAI.for_agent st agent_id).1 ∧
    (MemphoraCrewAI.for_agent (MemphoraCrewAI.for_agent st agent_id).2 agent_id).2 =
      (MemphoraCrewAI.for_agent st agent_id).2 ∧
    (st.agent_memories.find? (fun p => p.1 == agent_id) = none →
      (MemphoraCrewAI.for_agent st agent_id).1 =
        { tag := st.next_tag, agent_id := agent_id, crew_id := st.crew_id }) := by
  cases h : st.agent_memories.find? (fun p => p.1 == agent_id) with
  | some p =>
    refine ⟨?_, ?_, fun hn => by simp [h] at hn⟩ <;>
      simp [MemphoraCrewAI.for_agent, h]
  | none =>
    refine ⟨?_, ?_, fun _ => by simp [MemphoraCrewAI.for_agent, h]⟩ <;>
      simp [MemphoraCrewAI.for_agent, h, List.find?_append, List.find?]

/-- Witness for C8: on a fresh crew adapter, the second call for the same
agent id returns the very handle built by the first call, which carries the
agent id, the crew id, and the first allocation tag. -/
theorem for_agent_memoized_witness :
    (MemphoraCrewAI.for_agent (MemphoraCrewAI.for_agent crewDemo "researcher").2
        "researcher").1 =
      (MemphoraCrewAI.for_agent crewDemo "researcher").1 ∧
    (MemphoraCrewAI.for_agent crewDemo "researcher").1 =
      { tag := 0, agent_id := "researcher", crew_id := "my-crew" } := by
  have h := for_agent_memoized crewDemo "researcher"
  exact ⟨h.1, (h.2.2 (by decide)).trans (by decide)⟩

/-- C10: escalation detection is substring matching on the lowercased content
with no word-boundary check: whenever some keyword occurs as a contiguous
substring of the lowercased content of a non-empty message (with tracking
enabled), the ESCALATION-prefixed record is among the stores. -/
theorem escalation_substring_matching (st : MemphoraAutoGen)
    (content sender receiver : String) (htrack : st.track_escalations = true)
    (hne : content ≠ "")
    (hkw : ∃ kw ∈ escalation_keywords, kw.data <:+: (pyLower content).data) :
    BCall.store_agent_memory sender ("ESCALATION: " ++ content)
        [("type", "escalation"), ("session_id", st.session_id),
         ("from_agent", sender), ("to_agent", receiver)] ∈
      (MemphoraAutoGen.on_message st content sender receiver).2 := by
  obtain ⟨kw, hmem, hinf⟩ := hkw
  have hb : escalation_keywords.any (fun kw => pyInStr kw (pyLower content)) = true := by
    rw [List.any_eq_true]
    refine ⟨kw, hmem, ?_⟩
    rw [pyInStr, substrOfB_iff]
    exact hinf
  unfold MemphoraAutoGen.on_message
  simp [hne, htrack, hb]

/-- Witness for C10: "Humanity" contains the keyword "human" only as a proper
substring of a longer word, yet the escalation record is stored. -/
theorem escalation_substring_matching_witness :
    BCall.store_agent_memory "a" "ESCALATION: Humanity"
        [("type", "escalation"), ("session_id", "session-123"),
         ("from_agent", "a"), ("to_agent", "b")] ∈
      (MemphoraAutoGen.on_message agDemo "Humanity" "a" "b").2 :=
  escalation_substring_matching agDemo "Humanity" "a" "b" rfl (by decide)
    ⟨"human", by decide, by decide⟩
